import Mathlib

/-!
Shallow embedding of the smart-vent hub core (`src/hub/src/vent_hub/`):
the device data model (`models.py`), the SQLite-backed device registry
(`device_registry.py`), the CoAP protocol client decoders (`coap_client.py`),
the group-command fan-out (`group_manager.py`), the discovery pipeline
(`discovery.py`) and the rule scheduler (`scheduler.py`).

The SQLite `devices` table is modelled as a `List VentDevice` in row order
(the table's primary key is `eui64`; the embedding's operations implement the
SQL statements of `device_registry.py` row by row).  Network exchanges are
modelled by explicit oracles (a function from address to outcome), timestamps
by a `Nat` passed in as `now`, and Python exceptions by `Option`/`Except`.
-/

namespace VentHub

/-- `VentState` from `models.py`: values "open", "closed", "partial", "moving"
(`partway` stands for the source's PARTIAL member). -/
inductive VentState where
  | opened
  | closed
  | partway
  | moving
deriving DecidableEq, Repr

/-- `PowerSource` from `models.py`: values "usb", "battery". -/
inductive PowerSource where
  | usb
  | battery
deriving DecidableEq, Repr

/-- `VentDevice` dataclass from `models.py` / one row of the `devices` table
(`device_registry.py` CREATE_TABLE).  `last_seen` is an optional timestamp,
modelled as `Option Nat`. -/
structure VentDevice where
  eui64 : String
  ipv6_address : String := ""
  room : String := ""
  floor : String := ""
  name : String := ""
  angle : Int := 90
  state : VentState := VentState.closed
  firmware_version : String := ""
  last_seen : Option Nat := none
  rssi : Int := 0
  power_source : PowerSource := PowerSource.usb
  poll_period_ms : Int := 0
deriving DecidableEq, Repr

namespace DeviceRegistry

/-- The `ON CONFLICT(eui64) DO UPDATE SET` clause of `DeviceRegistry.upsert`:
every column is replaced from the incoming row (`excluded`), except that
`room`/`floor`/`name` keep the stored value when the incoming value is the
empty string, and `last_seen` is set to the time of the call. -/
def mergeRow (old d : VentDevice) (now : Nat) : VentDevice :=
  { d with
    room := if d.room ≠ "" then d.room else old.room
    floor := if d.floor ≠ "" then d.floor else old.floor
    name := if d.name ≠ "" then d.name else old.name
    last_seen := some now }

/-- `DeviceRegistry.upsert` (`device_registry.py` lines 53-90): INSERT the row
with `last_seen = now`, or on a primary-key conflict apply `mergeRow` to the
stored row. -/
def upsert (now : Nat) (d : VentDevice) : List VentDevice → List VentDevice
  | [] => [{ d with last_seen := some now }]
  | r :: rs =>
      if r.eui64 = d.eui64 then mergeRow r d now :: rs
      else r :: upsert now d rs

/-- `DeviceRegistry.get`: `SELECT * FROM devices WHERE eui64 = ?` (first
matching row or none). -/
def get : List VentDevice → String → Option VentDevice
  | [], _ => none
  | r :: rs, i => if r.eui64 = i then some r else get rs i

/-- `DeviceRegistry.list_by_room`: `SELECT * FROM devices WHERE room = ?`. -/
def list_by_room (reg : List VentDevice) (room : String) : List VentDevice :=
  reg.filter (fun d => d.room = room)

/-- `DeviceRegistry.list_by_floor`: `SELECT * FROM devices WHERE floor = ?`. -/
def list_by_floor (reg : List VentDevice) (floor : String) : List VentDevice :=
  reg.filter (fun d => d.floor = floor)

/-- `DeviceRegistry.update_position`: `UPDATE devices SET angle = ?, state = ?,
last_seen = ? WHERE eui64 = ?`; returns the new table and whether a row
matched (`cursor.rowcount > 0`). -/
def update_position (now : Nat) (reg : List VentDevice) (eui64 : String)
    (angle : Int) (state : VentState) : List VentDevice × Bool :=
  (reg.map (fun r =>
      if r.eui64 = eui64 then
        { r with angle := angle, state := state, last_seen := some now }
      else r),
   reg.any (fun r => r.eui64 = eui64))

/-- First-occurrence deduplication, the order a Python dict (or SQL DISTINCT
read in row order) yields its keys. -/
def firstDedup (l : List String) : List String :=
  go l []
where
  go : List String → List String → List String
  | [], _ => []
  | a :: l, seen => if a ∈ seen then go l seen else a :: go l (a :: seen)

/-- `DeviceRegistry.get_rooms`: `SELECT DISTINCT room FROM devices WHERE
room != '' ORDER BY room`. -/
def get_rooms (reg : List VentDevice) : List String :=
  (firstDedup ((reg.map (fun d => d.room)).filter (fun r => r ≠ ""))).mergeSort
    (fun a b => a ≤ b)

/-- `DeviceRegistry.get_floors`: `SELECT DISTINCT floor FROM devices WHERE
floor != '' ORDER BY floor`. -/
def get_floors (reg : List VentDevice) : List String :=
  (firstDedup ((reg.map (fun d => d.floor)).filter (fun f => f ≠ ""))).mergeSort
    (fun a b => a ≤ b)

end DeviceRegistry

/-! CBOR response payloads of `coap_client.py` are compact maps with small
integer keys; a map with integer values is modelled as an association list
(`data[k]` is `lookup` that may fail, `data.get(k, dflt)` is `lookup` with a
default). -/

namespace CoapClient

/-- `data[k]`: Python dict indexing, raising `KeyError` when the key is
absent (modelled as `Except.error ()`). -/
def indexKey (data : List (Nat × Int)) (k : Nat) : Except Unit Int :=
  match data.lookup k with
  | some v => Except.ok v
  | none => Except.error ()

/-- `CoapClient._STATE_MAP.get(code, VentState.CLOSED)`: state codes
0=open, 1=closed, 2=partial, 3=moving, anything else falls back to closed. -/
def stateFromCode (code : Int) : VentState :=
  if code = 0 then VentState.opened
  else if code = 1 then VentState.closed
  else if code = 2 then VentState.partway
  else if code = 3 then VentState.moving
  else VentState.closed

/-- `CoapClient.set_target` (`coap_client.py` lines 82-85): the angle is
clamped with `max(90, min(180, angle))` and the PUT payload is the
single-entry map `{0: angle}` carrying the clamped value. -/
def set_target_wire (angle : Int) : List (Nat × Int) :=
  [(0, max 90 (min 180 angle))]

/-- Result of `CoapClient.get_config`. -/
structure DeviceConfig where
  room : String
  floor : String
  name : String
deriving DecidableEq, Repr

/-- Result of `CoapClient.get_health`. -/
structure DeviceHealth where
  rssi : Int
  poll_period_ms : Int
  power_source : PowerSource
  free_heap : Int
  battery_mv : Option Int
deriving DecidableEq, Repr

/-- Result of `CoapClient.get_identity` (decoded positionally from
`data[0]`, `data[1]`, `data[2]`). -/
structure DeviceIdentity where
  eui64 : String
  firmware_version : String
  uptime_s : Int
deriving DecidableEq, Repr

/-- `CoapClient.get_position`: the argument is the transport outcome (`none`
models a failed exchange or non-success code, i.e. a raised `CoapError`).
On a payload, `data[0]` is the angle and `data[1]` the state code — both are
indexed directly, so an absent key raises `KeyError`; only an unrecognized
state code falls back to closed. -/
def get_position (resp : Option (List (Nat × Int))) :
    Except Unit (Int × VentState) :=
  match resp with
  | none => Except.error ()
  | some data => do
      let s ← indexKey data 1
      let a ← indexKey data 0
      Except.ok (a, stateFromCode s)

/-- `CoapClient.get_config`: room/floor/name are read with
`data.get(k, "")`, so absent keys default to the empty string. -/
def get_config (resp : Option (List (Nat × String))) :
    Except Unit DeviceConfig :=
  match resp with
  | none => Except.error ()
  | some data =>
      Except.ok
        { room := (data.lookup 0).getD ""
          floor := (data.lookup 1).getD ""
          name := (data.lookup 2).getD "" }

/-- `CoapClient.get_health`: `data[0]`..`data[3]` are indexed directly
(absent keys raise `KeyError`); the power source is usb iff the code is 0;
only the battery field uses `data.get(4)` and defaults to absent. -/
def get_health (resp : Option (List (Nat × Int))) :
    Except Unit DeviceHealth :=
  match resp with
  | none => Except.error ()
  | some data => do
      let rssi ← indexKey data 0
      let poll ← indexKey data 1
      let pwr ← indexKey data 2
      let heap ← indexKey data 3
      Except.ok
        { rssi := rssi
          poll_period_ms := poll
          power_source := if pwr = 0 then PowerSource.usb else PowerSource.battery
          free_heap := heap
          battery_mv := data.lookup 4 }

/-- `CoapClient.probe_device` (`coap_client.py` lines 126-151): identity,
raw position payload, config, and health are fetched in order inside one
`try` block; the assembled record indexes `position[0]`/`position[1]`; any
exception anywhere yields `None`.  Each argument is the corresponding
sub-call's transport outcome (`none` = that exchange raised). -/
def probe_device (identityR : Option DeviceIdentity)
    (positionR : Option (List (Nat × Int)))
    (configR : Option (List (Nat × String)))
    (healthR : Option (List (Nat × Int)))
    (address : String) : Option VentDevice :=
  (do
    let identity ← match identityR with
      | some i => Except.ok i
      | none => Except.error ()
    let position ← match positionR with
      | some p => Except.ok p
      | none => Except.error ()
    let config ← get_config configR
    let health ← get_health healthR
    let a ← indexKey position 0
    let s ← indexKey position 1
    (Except.ok
      { eui64 := identity.eui64
        ipv6_address := address
        room := config.room
        floor := config.floor
        name := config.name
        angle := a
        state := stateFromCode s
        firmware_version := identity.firmware_version
        rssi := health.rssi
        power_source := health.power_source
        poll_period_ms := health.poll_period_ms } : Except Unit VentDevice)).toOption

end CoapClient

/-- Row ordering of `SELECT * FROM devices ORDER BY floor, room, name`. -/
def rowOrder (a b : VentDevice) : Bool :=
  a.floor < b.floor ∨
    (a.floor = b.floor ∧
      (a.room < b.room ∨ (a.room = b.room ∧ a.name ≤ b.name)))

namespace DeviceRegistry

/-- `DeviceRegistry.list_all`: `SELECT * FROM devices ORDER BY floor, room,
name`. -/
def list_all (reg : List VentDevice) : List VentDevice :=
  reg.mergeSort rowOrder

end DeviceRegistry

namespace GroupManager

/-- The network oracle for a group command: whether the CoAP set-target
exchange to a given address succeeds (`false` = the exchange raises). -/
abbrev Net := String → Bool

/-- `GroupManager._set_one` (`group_manager.py` lines 66-81) for one device:
a device with no address is skipped (returns `None`, nothing sent); otherwise
`set_target` is attempted (the wire message records the clamped payload); on
success `update_position(eui64, angle, "moving")` runs and the device is
returned with its angle field set to the commanded value; on failure the
exception is re-raised (`Except.error`).  Returns (outcome, wire messages
sent, registry after the call). -/
def set_one (net : Net) (now : Nat) (reg : List VentDevice)
    (device : VentDevice) (angle : Int) :
    Except Unit (Option VentDevice) ×
      List (String × List (Nat × Int)) × List VentDevice :=
  if device.ipv6_address = "" then (Except.ok none, [], reg)
  else
    let wire := (device.ipv6_address, CoapClient.set_target_wire angle)
    if net device.ipv6_address then
      (Except.ok (some { device with angle := angle }),
       [wire],
       (DeviceRegistry.update_position now reg device.eui64 angle
          VentState.moving).1)
    else (Except.error (), [wire], reg)

/-- The `asyncio.gather(..., return_exceptions=True)` fan-out of
`GroupManager._set_devices` together with the result-collection loop: every
device's task runs (an exception in one is captured and only drops that
device from the `updated` list); devices returning `None` (no address) are
also dropped.  Registry effects are threaded in list order. -/
def setLoop (net : Net) (now : Nat) (a : Int) :
    List VentDevice → List VentDevice →
      List VentDevice × List (String × List (Nat × Int)) × List VentDevice
  | [], reg => ([], [], reg)
  | d :: ds, reg =>
      let (res, w, reg2) := set_one net now reg d a
      let (upd, ws, reg3) := setLoop net now a ds reg2
      match res with
      | Except.ok (some dev) => (dev :: upd, w ++ ws, reg3)
      | Except.ok none => (upd, w ++ ws, reg3)
      | Except.error _ => (upd, w ++ ws, reg3)

/-- `GroupManager._set_devices` (`group_manager.py` lines 37-64): empty
resolved list returns `[]` (logged, no error); otherwise the angle is clamped
once with `max(90, min(180, angle))` and fanned out.  Returns (updated
devices, wire messages sent, final registry). -/
def set_devices (net : Net) (now : Nat) (devices : List VentDevice)
    (angle : Int) (reg : List VentDevice) :
    List VentDevice × List (String × List (Nat × Int)) × List VentDevice :=
  if devices.isEmpty then ([], [], reg)
  else setLoop net now (max 90 (min 180 angle)) devices reg

/-- `GroupManager.set_room_angle`: resolve via `list_by_room`, then fan out. -/
def set_room_angle (net : Net) (now : Nat) (reg : List VentDevice)
    (room : String) (angle : Int) :
    List VentDevice × List (String × List (Nat × Int)) × List VentDevice :=
  set_devices net now (DeviceRegistry.list_by_room reg room) angle reg

/-- `GroupManager.set_floor_angle`: resolve via `list_by_floor`, then fan
out. -/
def set_floor_angle (net : Net) (now : Nat) (reg : List VentDevice)
    (floor : String) (angle : Int) :
    List VentDevice × List (String × List (Nat × Int)) × List VentDevice :=
  set_devices net now (DeviceRegistry.list_by_floor reg floor) angle reg

/-- `GroupManager.set_all_angle`: resolve via `list_all`, then fan out. -/
def set_all_angle (net : Net) (now : Nat) (reg : List VentDevice)
    (angle : Int) :
    List VentDevice × List (String × List (Nat × Int)) × List VentDevice :=
  set_devices net now (DeviceRegistry.list_all reg) angle reg

/-- A device `_set_one` attempts to contact: it has a known address. -/
def attempted (d : VentDevice) : Bool :=
  d.ipv6_address ≠ ""

/-- A device whose set-target exchange succeeds. -/
def succeeded (net : Net) (d : VentDevice) : Bool :=
  attempted d && net d.ipv6_address

end GroupManager

/-- Python's `round` applied to the exact rational `num / den` (`den > 0`):
round half to even.  Python computes `round(sum/len)` through float division;
for the angle sums at hand the float quotient ties exactly when the rational
one does (a tie has reduced denominator 2, which floats represent exactly),
so the rational model is faithful. -/
def pythonRound (num den : Int) : Int :=
  let q := num / den
  let r := num % den
  if 2 * r < den then q
  else if den < 2 * r then q + 1
  else if q % 2 = 0 then q else q + 1

/-- Sum of the `angle` fields of a device list. -/
def sumAngles (devices : List VentDevice) : Int :=
  (devices.map (fun d => d.angle)).sum

/-- The dict returned by `GroupManager.get_room_summary`. -/
structure RoomSummary where
  room : String
  device_count : Nat
  average_angle : Int
  devices : List (String × Int × VentState)
deriving DecidableEq, Repr

/-- The dict returned by `GroupManager.get_floor_summary`: floor label,
device count, room count and room-name list — it carries no angle
aggregate. -/
structure FloorSummary where
  floor : String
  device_count : Nat
  room_count : Nat
  rooms : List String
deriving DecidableEq, Repr

namespace GroupManager

/-- `GroupManager.get_room_summary` (`group_manager.py` lines 83-98): a pure
read of `list_by_room`; the average angle is `round(sum/len)` when the group
is non-empty and 90 otherwise. -/
def get_room_summary (reg : List VentDevice) (room : String) : RoomSummary :=
  let devices := DeviceRegistry.list_by_room reg room
  { room := room
    device_count := devices.length
    average_angle :=
      if devices.isEmpty then 90
      else pythonRound (sumAngles devices) devices.length
    devices := devices.map (fun d => (d.eui64, d.angle, d.state)) }

/-- `GroupManager.get_floor_summary` (`group_manager.py` lines 100-111): a
pure read of `list_by_floor`; devices are bucketed by room with
`rooms.setdefault(d.room, [])` (first-occurrence key order), and the dict
holds floor, device count, room count, and the room-name list. -/
def get_floor_summary (reg : List VentDevice) (floor : String) : FloorSummary :=
  let devices := DeviceRegistry.list_by_floor reg floor
  let rooms := DeviceRegistry.firstDedup (devices.map (fun d => d.room))
  { floor := floor
    device_count := devices.length
    room_count := rooms.length
    rooms := rooms }

end GroupManager

namespace DeviceDiscovery

/-- The fold of upserts `discover` performs over the probed addresses: every
address whose probe succeeds is upserted, new or not. -/
def upsertAll (now : Nat) (probeRes : String → Option VentDevice)
    (addresses : List String) (reg : List VentDevice) : List VentDevice :=
  addresses.foldl
    (fun r a =>
      match probeRes a with
      | none => r
      | some d => DeviceRegistry.upsert now d r)
    reg

/-- `DeviceDiscovery.discover` (`discovery.py` lines 30-57): for each address
(the control-plane topology answer), probe it (`probeRes` is the probe
outcome per address; a failed probe is discarded); for a successful probe,
read `existing = registry.get(device.eui64)` BEFORE upserting, then upsert,
and classify the device as new iff `existing` was absent.  Returns (newly
discovered devices, final registry); the code's empty-address early return
coincides with the base case. -/
def discover (now : Nat) (probeRes : String → Option VentDevice) :
    List String → List VentDevice → List VentDevice × List VentDevice
  | [], reg => ([], reg)
  | a :: rest, reg =>
      match probeRes a with
      | none => discover now probeRes rest reg
      | some device =>
          let existing := DeviceRegistry.get reg device.eui64
          let reg2 := DeviceRegistry.upsert now device reg
          let (ns, regF) := discover now probeRes rest reg2
          match existing with
          | none => (device :: ns, regF)
          | some _ => (ns, regF)

/-- The ids present in a registry (the primary-key column). -/
def knownIds (reg : List VentDevice) : List String :=
  reg.map (fun d => d.eui64)

/-- Specification of `discover`'s new-device classification, abstracted to
the set of known ids: walk the addresses in order; a successfully probed
device is new iff its id is not yet known AT ITS PRE-CHECK — the id is added
to the known set only after the check, so a second probe of the same id in
the same run is not new.  `discover` must return exactly this list; a
variant that upserted before checking would instead return nothing. -/
def newDevices (p : String → Option VentDevice) :
    List String → List String → List VentDevice
  | [], _ => []
  | a :: rest, known =>
      match p a with
      | none => newDevices p rest known
      | some d =>
          if d.eui64 ∈ known then newDevices p rest known
          else d :: newDevices p rest (d.eui64 :: known)

end DeviceDiscovery

/-- `ScheduleRule` dataclass from `scheduler.py`; `time` is carried as its
hour/minute pair (`matches_time` only reads those). -/
structure ScheduleRule where
  name : String
  hour : Nat
  minute : Nat
  target : String
  target_type : String
  angle : Int
  enabled : Bool := true
deriving DecidableEq, Repr

/-- A wall-clock instant truncated to (hour, minute). -/
structure ClockTime where
  hour : Nat
  minute : Nat
deriving DecidableEq, Repr

/-- `ScheduleRule.matches_time` (`scheduler.py` lines 27-32): enabled and
hour/minute equal exactly. -/
def ScheduleRule.matches_time (r : ScheduleRule) (t : ClockTime) : Bool :=
  r.enabled && r.hour == t.hour && r.minute == t.minute

/-- One GroupManager invocation as dispatched by `Scheduler._execute_rule`. -/
inductive GroupCall where
  | setAll (angle : Int)
  | setRoom (target : String) (angle : Int)
  | setFloor (target : String) (angle : Int)
deriving DecidableEq, Repr

namespace Scheduler

/-- `Scheduler.add_rule`: appends to `self._rules` unconditionally. -/
def add_rule (rules : List ScheduleRule) (r : ScheduleRule) :
    List ScheduleRule :=
  rules ++ [r]

/-- `Scheduler.remove_rule`: keeps the rules whose name differs and reports
whether the list shrank. -/
def remove_rule (rules : List ScheduleRule) (name : String) :
    List ScheduleRule × Bool :=
  let kept := rules.filter (fun r => r.name ≠ name)
  (kept, kept.length < rules.length)

/-- The dispatch of `Scheduler._execute_rule` keyed by `target_type`
(anything else dispatches no call). -/
def rule_dispatch (r : ScheduleRule) : Option GroupCall :=
  if r.target_type = "all" then some (GroupCall.setAll r.angle)
  else if r.target_type = "room" then some (GroupCall.setRoom r.target r.angle)
  else if r.target_type = "floor" then
    some (GroupCall.setFloor r.target r.angle)
  else none

/-- `Scheduler._execute_rule` (`scheduler.py` lines 68-78): dispatch the
GroupManager call for the rule; `fails` says whether that call raises; the
exception is caught and logged, so the function always returns, logging the
attempted call and its outcome. -/
def execute_rule (fails : GroupCall → Bool) (r : ScheduleRule) :
    List (GroupCall × Bool) :=
  match rule_dispatch r with
  | some c => [(c, !(fails c))]
  | none => []

/-- `Scheduler.check_rules` (`scheduler.py` lines 56-66): walk the rules in
order; each rule matching the current time is executed (sequentially) and
counted.  Returns (executed count, log of attempted GroupManager calls with
their outcomes). -/
def check_rules (fails : GroupCall → Bool) (rules : List ScheduleRule)
    (t : ClockTime) : Nat × List (GroupCall × Bool) :=
  match rules with
  | [] => (0, [])
  | r :: rs =>
      if r.matches_time t then
        let log := execute_rule fails r
        let (n, logs) := check_rules fails rs t
        (n + 1, log ++ logs)
      else check_rules fails rs t

end Scheduler

end VentHub

namespace VentHub

open DeviceRegistry

/-- After an upsert, looking up the upserted id: the merge happened when the
id was present, the insert when it was absent. -/
theorem get_upsert_self (now : Nat) (d : VentDevice) (reg : List VentDevice) :
    get (upsert now d reg) d.eui64 =
      some (match get reg d.eui64 with
            | some old => mergeRow old d now
            | none => { d with last_seen := some now }) := by
  induction reg with
  | nil => simp [upsert, DeviceRegistry.get]
  | cons r rs ih =>
    by_cases h : r.eui64 = d.eui64
    · simp [upsert, DeviceRegistry.get, h, mergeRow]
    · simp [upsert, DeviceRegistry.get, h, ih]

/-- Upserting `d` does not change the lookup of any other id. -/
theorem get_upsert_other (now : Nat) (d : VentDevice) (reg : List VentDevice)
    (i : String) (hne : i ≠ d.eui64) :
    get (upsert now d reg) i = get reg i := by
  have hd : ¬ d.eui64 = i := fun hc => hne hc.symm
  induction reg with
  | nil =>
    simp [upsert, DeviceRegistry.get, hd]
  | cons r rs ih =>
    by_cases h : r.eui64 = d.eui64
    · have hr : ¬ r.eui64 = i := fun hc => hd (h ▸ hc)
      simp [upsert, DeviceRegistry.get, mergeRow, h, hd, hr]
    · by_cases hri : r.eui64 = i
      · simp [upsert, DeviceRegistry.get, h, hri, hne]
      · simp [upsert, DeviceRegistry.get, h, hri, ih]

/-- C1: `DeviceRegistry.upsert` on an id already present replaces all stored
fields except `room`/`floor`/`name`; each of those keeps the stored value
exactly when the incoming value is empty and is replaced when non-empty;
`last_seen` is set to the time of the call; an absent id is inserted (with
`last_seen` set to the call time). -/
theorem upsert_merge_semantics (now : Nat) (d : VentDevice) (reg : List VentDevice) :
    (∀ old, get reg d.eui64 = some old →
        get (upsert now d reg) d.eui64 =
          some { d with
                 room := if d.room = "" then old.room else d.room
                 floor := if d.floor = "" then old.floor else d.floor
                 name := if d.name = "" then old.name else d.name
                 last_seen := some now }) ∧
    (get reg d.eui64 = none →
        get (upsert now d reg) d.eui64 = some { d with last_seen := some now }) := by
  constructor
  · intro old hold
    rw [get_upsert_self, hold]
    simp only [mergeRow, ne_eq, ite_not]
  · intro hnone
    rw [get_upsert_self, hnone]

/-- Witness for C1 at a concrete registry: a stored device `"A"` with labels,
upserted with an empty-label poll record, keeps its labels and gets the fresh
angle/state/`last_seen`. -/
theorem upsert_merge_semantics_witness :
    get (upsert 7
          { eui64 := "A", ipv6_address := "fd00::2", angle := 135,
            state := VentState.partway, firmware_version := "0.2.0" }
          [{ eui64 := "A", ipv6_address := "fd00::1", room := "kitchen",
             floor := "1", name := "north", angle := 90,
             state := VentState.closed, last_seen := some 3 }])
        "A" =
      some { eui64 := "A", ipv6_address := "fd00::2", room := "kitchen",
             floor := "1", name := "north", angle := 135,
             state := VentState.partway, firmware_version := "0.2.0",
             last_seen := some 7 } := by
  have h :=
    (upsert_merge_semantics 7
      { eui64 := "A", ipv6_address := "fd00::2", angle := 135,
        state := VentState.partway, firmware_version := "0.2.0" }
      [{ eui64 := "A", ipv6_address := "fd00::1", room := "kitchen",
         floor := "1", name := "north", angle := 90,
         state := VentState.closed, last_seen := some 3 }]).1
      { eui64 := "A", ipv6_address := "fd00::1", room := "kitchen",
        floor := "1", name := "north", angle := 90,
        state := VentState.closed, last_seen := some 3 } (by decide)
  simpa using h

/-- Characterization of the fan-out loop: the updated list is exactly the
devices with a known address whose exchange succeeds, each with its angle
field set to the commanded value; a wire message (with the clamped payload)
goes to exactly the devices with a known address; the registry receives
`update_position(eui64, angle, moving)` for exactly the successful devices,
in list order. -/
theorem setLoop_spec (net : GroupManager.Net) (now : Nat) (a : Int)
    (devices reg : List VentDevice) :
    GroupManager.setLoop net now a devices reg =
      ((devices.filter (GroupManager.succeeded net)).map
          (fun d => { d with angle := a }),
       (devices.filter GroupManager.attempted).map
          (fun d => (d.ipv6_address, CoapClient.set_target_wire a)),
       (devices.filter (GroupManager.succeeded net)).foldl
          (fun r d =>
            (DeviceRegistry.update_position now r d.eui64 a
               VentState.moving).1)
          reg) := by
  induction devices generalizing reg with
  | nil => simp [GroupManager.setLoop]
  | cons d ds ih =>
    by_cases ha : d.ipv6_address = ""
    · simp [GroupManager.setLoop, GroupManager.set_one,
        GroupManager.succeeded, GroupManager.attempted, ha, ih]
    · by_cases hn : net d.ipv6_address
      · simp [GroupManager.setLoop, GroupManager.set_one,
          GroupManager.succeeded, GroupManager.attempted, ha, hn, ih]
      · simp [GroupManager.setLoop, GroupManager.set_one,
          GroupManager.succeeded, GroupManager.attempted, ha, hn, ih]

/-- `set_devices` characterization (the `devices.isEmpty` early return agrees
with the general formula). -/
theorem set_devices_spec (net : GroupManager.Net) (now : Nat)
    (devices : List VentDevice) (angle : Int) (reg : List VentDevice) :
    GroupManager.set_devices net now devices angle reg =
      ((devices.filter (GroupManager.succeeded net)).map
          (fun d => { d with angle := max 90 (min 180 angle) }),
       (devices.filter GroupManager.attempted).map
          (fun d =>
            (d.ipv6_address, CoapClient.set_target_wire (max 90 (min 180 angle)))),
       (devices.filter (GroupManager.succeeded net)).foldl
          (fun r d =>
            (DeviceRegistry.update_position now r d.eui64
               (max 90 (min 180 angle)) VentState.moving).1)
          reg) := by
  cases devices with
  | nil => simp [GroupManager.set_devices]
  | cons d ds =>
    simp only [GroupManager.set_devices, List.isEmpty_cons, Bool.false_eq_true,
      if_false]
    exact setLoop_spec net now (max 90 (min 180 angle)) (d :: ds) reg

/-- C2: in every group command fan-out, per-device outcomes are independent:
the returned list is exactly the devices whose exchange succeeded, each with
its angle field set to the commanded (clamped) value, and the registry gets
`update_position(id, angle, "moving")` for exactly those devices; a raising
device is excluded without cancelling the others, and partial failure raises
nothing (`set_devices` is a total function returning the partial list). -/
theorem group_fanout_isolation (net : GroupManager.Net) (now : Nat)
    (devices : List VentDevice) (angle : Int) (reg : List VentDevice) :
    (GroupManager.set_devices net now devices angle reg).1 =
        (devices.filter (GroupManager.succeeded net)).map
          (fun d => { d with angle := max 90 (min 180 angle) }) ∧
    (GroupManager.set_devices net now devices angle reg).2.2 =
        (devices.filter (GroupManager.succeeded net)).foldl
          (fun r d =>
            (DeviceRegistry.update_position now r d.eui64
               (max 90 (min 180 angle)) VentState.moving).1)
          reg := by
  rw [set_devices_spec]
  exact ⟨rfl, rfl⟩

/-- Arithmetic of the clamp `max(90, min(180, angle))`. -/
theorem clamp_facts (x : Int) :
    90 ≤ max 90 (min 180 x) ∧ max 90 (min 180 x) ≤ 180 ∧
      (90 ≤ x → x ≤ 180 → max 90 (min 180 x) = x) ∧
      (x < 90 → max 90 (min 180 x) = 90) ∧
      (180 < x → max 90 (min 180 x) = 180) := by
  refine ⟨?_, ?_, ?_, ?_, ?_⟩ <;>
    simp only [max_def, min_def] <;> split_ifs <;> omega

/-- C4: `set_target` puts exactly one entry on the wire, key 0 holding the
clamped value `max(90, min(180, angle))` — in range always, the identity on
in-range input, the nearest bound outside (999 ↦ 180, -50 ↦ 90) — and the
group fan-out clamps once before sending, so every wire message of a group
command carries that same clamped value. -/
theorem set_target_clamping (angle : Int) :
    (CoapClient.set_target_wire angle).length = 1 ∧
    (∀ k v, (k, v) ∈ CoapClient.set_target_wire angle →
        k = 0 ∧ 90 ≤ v ∧ v ≤ 180 ∧
        (90 ≤ angle → angle ≤ 180 → v = angle) ∧
        (angle < 90 → v = 90) ∧ (180 < angle → v = 180)) ∧
    (∀ (net : GroupManager.Net) (now : Nat) (devices reg : List VentDevice)
        (w : String × List (Nat × Int)),
        w ∈ (GroupManager.set_devices net now devices angle reg).2.1 →
        w.2 = CoapClient.set_target_wire angle) ∧
    CoapClient.set_target_wire 999 = [(0, 180)] ∧
    CoapClient.set_target_wire (-50) = [(0, 90)] := by
  have hidem :
      max 90 (min 180 (max 90 (min 180 angle))) = max 90 (min 180 angle) := by
    simp only [max_def, min_def]
    split_ifs <;> omega
  refine ⟨rfl, ?_, ?_, by decide, by decide⟩
  · intro k v hkv
    have hc := clamp_facts angle
    simp only [CoapClient.set_target_wire, List.mem_singleton,
      Prod.mk.injEq] at hkv
    obtain ⟨hk, hv⟩ := hkv
    subst hk; subst hv
    exact ⟨rfl, hc.1, hc.2.1, hc.2.2.1, hc.2.2.2.1, hc.2.2.2.2⟩
  · intro net now devices reg w hw
    rw [set_devices_spec] at hw
    simp only [List.mem_map] at hw
    obtain ⟨d, _, rfl⟩ := hw
    simp [CoapClient.set_target_wire, hidem]

/-- Witness for C4 at the concrete out-of-range angle 999 and a one-device
group: the only wire message carries 180. -/
theorem set_target_clamping_witness :
    ((0 : Nat), (180 : Int)) ∈ CoapClient.set_target_wire 999 ∧
    (90 : Int) ≤ 180 ∧ (180 : Int) ≤ 180 := by
  have h := (set_target_clamping 999).2.1 0 180 (by decide)
  exact ⟨by decide, h.2.1, h.2.2.1⟩

/-- C6: `probe_device` never raises (it is total, returning `Option`), and
whenever any sub-call — identity, position, config, health — fails, the
result is the overall unreachable outcome `none`; conversely a `some` result
implies every sub-call's exchange succeeded, so no partial record is ever
assembled from the fields gathered before a failure. -/
theorem probe_all_or_nothing (identityR : Option CoapClient.DeviceIdentity)
    (positionR : Option (List (Nat × Int)))
    (configR : Option (List (Nat × String)))
    (healthR : Option (List (Nat × Int))) (address : String) :
    (identityR = none →
        CoapClient.probe_device identityR positionR configR healthR address =
          none) ∧
    (positionR = none →
        CoapClient.probe_device identityR positionR configR healthR address =
          none) ∧
    (configR = none →
        CoapClient.probe_device identityR positionR configR healthR address =
          none) ∧
    (healthR = none →
        CoapClient.probe_device identityR positionR configR healthR address =
          none) ∧
    (∀ d,
        CoapClient.probe_device identityR positionR configR healthR address =
          some d →
        identityR.isSome ∧ positionR.isSome ∧ configR.isSome ∧
          healthR.isSome) := by
  refine ⟨?_, ?_, ?_, ?_, ?_⟩
  · rintro rfl; rfl
  · rintro rfl; rcases identityR with _ | i <;> rfl
  · rintro rfl
    rcases identityR with _ | i <;> rcases positionR with _ | pk <;> rfl
  · rintro rfl
    rcases identityR with _ | i <;> rcases positionR with _ | pk <;>
      rcases configR with _ | ck <;> rfl
  · rcases identityR with _ | i
    · exact fun d h => Option.noConfusion h
    · rcases positionR with _ | pk
      · exact fun d h => Option.noConfusion h
      · rcases configR with _ | ck
        · exact fun d h => Option.noConfusion h
        · rcases healthR with _ | hk
          · exact fun d h => Option.noConfusion h
          · exact fun d h => ⟨rfl, rfl, rfl, rfl⟩

/-- Witness for C6: a concrete probe whose identity exchange failed returns
`none` even though position, config, and health all answered. -/
theorem probe_all_or_nothing_witness :
    CoapClient.probe_device none (some [(0, 135), (1, 2)]) (some [])
        (some [(0, -60), (1, 5000), (2, 0), (3, 10000)]) "fd00::1" = none :=
  (probe_all_or_nothing none (some [(0, 135), (1, 2)]) (some [])
      (some [(0, -60), (1, 5000), (2, 0), (3, 10000)]) "fd00::1").1 rfl

/-- Counterexample to C8: decoding does NOT substitute documented defaults
for absent required fields.  A position payload missing the angle (key 0), a
position payload missing the state (key 1), and a health payload missing the
power-source code (key 2) all make the decoder raise `KeyError`
(`Except.error`) instead of defaulting to angle 90 / state closed / power
usb. -/
theorem decode_missing_field_raises :
    CoapClient.get_position (some [(1, 1)]) = Except.error () ∧
    CoapClient.get_position (some [(0, 135)]) = Except.error () ∧
    CoapClient.get_health (some [(0, -60), (1, 5000), (3, 10000)]) =
      Except.error () := by
  refine ⟨rfl, rfl, rfl⟩

/-- C8 as amended: only `get_config`'s room/floor/name default (to the empty
string) when absent, the battery field defaults to absent, and an
unrecognized state code maps to closed; absent required fields (position
angle/state, health rssi/poll-period/power/heap) make `get_position` /
`get_health` fail instead of defaulting. -/
theorem decode_defaults_amended (p : List (Nat × String))
    (data : List (Nat × Int)) :
    (∃ c, CoapClient.get_config (some p) = Except.ok c ∧
        (p.lookup 0 = none → c.room = "") ∧
        (p.lookup 1 = none → c.floor = "") ∧
        (p.lookup 2 = none → c.name = "")) ∧
    (data.lookup 0 = none →
        CoapClient.get_position (some data) = Except.error ()) ∧
    (data.lookup 1 = none →
        CoapClient.get_position (some data) = Except.error ()) ∧
    (∀ a s, data.lookup 0 = some a → data.lookup 1 = some s →
        s ≠ 0 → s ≠ 1 → s ≠ 2 → s ≠ 3 →
        CoapClient.get_position (some data) =
          Except.ok (a, VentState.closed)) ∧
    (data.lookup 2 = none →
        CoapClient.get_health (some data) = Except.error ()) ∧
    (∀ r pp pw fh, data.lookup 0 = some r → data.lookup 1 = some pp →
        data.lookup 2 = some pw → data.lookup 3 = some fh →
        data.lookup 4 = none →
        CoapClient.get_health (some data) =
          Except.ok
            { rssi := r, poll_period_ms := pp,
              power_source :=
                if pw = 0 then PowerSource.usb else PowerSource.battery,
              free_heap := fh, battery_mv := none }) := by
  refine ⟨⟨_, rfl, ?_, ?_, ?_⟩, ?_, ?_, ?_, ?_, ?_⟩
  · intro h; simp [h]
  · intro h; simp [h]
  · intro h; simp [h]
  · intro h0
    cases h1 : data.lookup 1 <;>
      simp only [CoapClient.get_position, CoapClient.indexKey, h0, h1] <;>
      rfl
  · intro h1
    simp only [CoapClient.get_position, CoapClient.indexKey, h1]
    rfl
  · intro a s h0 h1 hs0 hs1 hs2 hs3
    have hst : CoapClient.stateFromCode s = VentState.closed := by
      simp [CoapClient.stateFromCode, hs0, hs1, hs2, hs3]
    simp only [CoapClient.get_position, CoapClient.indexKey, h0, h1]
    show Except.ok (a, CoapClient.stateFromCode s) =
      Except.ok (a, VentState.closed)
    rw [hst]
  · intro h2
    cases h0 : data.lookup 0 <;> cases h1 : data.lookup 1 <;>
      simp only [CoapClient.get_health, CoapClient.indexKey, h0, h1, h2] <;>
      rfl
  · intro r pp pw fh h0 h1 h2 h3 h4
    simp only [CoapClient.get_health, CoapClient.indexKey, h0, h1, h2, h3, h4]
    rfl

/-- Witness for C8 (amended) at a concrete config payload with every key
absent and a concrete health payload without a battery field. -/
theorem decode_defaults_amended_witness :
    CoapClient.get_config (some ([] : List (Nat × String))) =
        Except.ok { room := "", floor := "", name := "" } ∧
    CoapClient.get_health (some [(0, -60), (1, 5000), (2, 1), (3, 10000)]) =
        Except.ok
          { rssi := -60, poll_period_ms := 5000,
            power_source := PowerSource.battery, free_heap := 10000,
            battery_mv := none } := by
  have h := decode_defaults_amended ([] : List (Nat × String))
    [(0, -60), (1, 5000), (2, 1), (3, 10000)]
  obtain ⟨⟨c, hc, hr, hf, hn⟩, -, -, -, -, hh⟩ := h
  constructor
  · rw [hc]
    have h0 : c.room = "" := hr rfl
    have h1 : c.floor = "" := hf rfl
    have h2 : c.name = "" := hn rfl
    cases c
    simp_all
  · have hres := hh (-60) 5000 1 10000 rfl rfl rfl rfl rfl
    simpa using hres

/-- `pythonRound num den` is a nearest integer to the rational `num / den`:
its distance to the exact quotient is at most 1/2 (stated denominator-free). -/
theorem pythonRound_nearest (num den : Int) (h : 0 < den) :
    |2 * (pythonRound num den * den - num)| ≤ den := by
  have h0 : den ≠ 0 := by omega
  have key : num = den * (num / den) + num % den :=
    (Int.ediv_add_emod num den).symm
  have hr0 : 0 ≤ num % den := Int.emod_nonneg num h0
  have hrd : num % den < den := Int.emod_lt_of_pos num h
  have hrw : pythonRound num den =
      if 2 * (num % den) < den then num / den
      else if den < 2 * (num % den) then num / den + 1
      else if (num / den) % 2 = 0 then num / den else num / den + 1 := rfl
  rw [hrw]
  set q := num / den with hq
  set r := num % den with hr
  split_ifs with h1 h2 h3
  · have he : 2 * (q * den - num) = -(2 * r) := by rw [key]; ring
    rw [he, abs_neg, abs_of_nonneg (by omega : (0 : Int) ≤ 2 * r)]
    omega
  · have he : 2 * ((q + 1) * den - num) = 2 * den - 2 * r := by rw [key]; ring
    rw [he, abs_of_nonneg (by omega : (0 : Int) ≤ 2 * den - 2 * r)]
    omega
  · have he : 2 * (q * den - num) = -(2 * r) := by rw [key]; ring
    rw [he, abs_neg, abs_of_nonneg (by omega : (0 : Int) ≤ 2 * r)]
    omega
  · have he : 2 * ((q + 1) * den - num) = 2 * den - 2 * r := by rw [key]; ring
    rw [he, abs_of_nonneg (by omega : (0 : Int) ≤ 2 * den - 2 * r)]
    omega

/-- Counterexample to C7: `get_floor_summary` carries no mean angle.  Two
registries with the same floor membership but different angle sums (mean 135
vs mean 90 on floor "2") produce identical floor summaries, so the floor
summary cannot return the group's mean angle as the claim states. -/
theorem floor_summary_carries_no_mean :
    GroupManager.get_floor_summary
        [{ eui64 := "A", room := "r", floor := "2", angle := 90 },
         { eui64 := "B", room := "r", floor := "2", angle := 180 }] "2" =
      GroupManager.get_floor_summary
        [{ eui64 := "A", room := "r", floor := "2", angle := 90 },
         { eui64 := "B", room := "r", floor := "2", angle := 90 }] "2" ∧
    pythonRound
        (sumAngles (DeviceRegistry.list_by_floor
          [{ eui64 := "A", room := "r", floor := "2", angle := 90 },
           { eui64 := "B", room := "r", floor := "2", angle := 180 }] "2"))
        (DeviceRegistry.list_by_floor
          [{ eui64 := "A", room := "r", floor := "2", angle := 90 },
           { eui64 := "B", room := "r", floor := "2", angle := 180 }] "2").length ≠
      pythonRound
        (sumAngles (DeviceRegistry.list_by_floor
          [{ eui64 := "A", room := "r", floor := "2", angle := 90 },
           { eui64 := "B", room := "r", floor := "2", angle := 90 }] "2"))
        (DeviceRegistry.list_by_floor
          [{ eui64 := "A", room := "r", floor := "2", angle := 90 },
           { eui64 := "B", room := "r", floor := "2", angle := 90 }] "2").length := by
  refine ⟨by decide, by decide⟩

/-- C7 as amended: `get_room_summary` reports the group size and the group's
mean angle rounded to a nearest integer (defaulting to 90 for an empty
group), while `get_floor_summary` reports only the group size (plus room
bucketing), with no angle aggregate; in the three-device scenario (angles
90/180/135 on floors "2"/"2"/"1"), `get_floor_summary("2")` reports
device_count = 2. -/
theorem summaries_aggregate (reg : List VentDevice) (room floor : String) :
    (GroupManager.get_room_summary reg room).device_count =
        (DeviceRegistry.list_by_room reg room).length ∧
    (DeviceRegistry.list_by_room reg room = [] →
        (GroupManager.get_room_summary reg room).average_angle = 90) ∧
    (DeviceRegistry.list_by_room reg room ≠ [] →
        |2 * ((GroupManager.get_room_summary reg room).average_angle *
            ((DeviceRegistry.list_by_room reg room).length : Int) -
          sumAngles (DeviceRegistry.list_by_room reg room))| ≤
          ((DeviceRegistry.list_by_room reg room).length : Int)) ∧
    (GroupManager.get_floor_summary reg floor).device_count =
        (DeviceRegistry.list_by_floor reg floor).length ∧
    (GroupManager.get_floor_summary
        [{ eui64 := "A", room := "r1", floor := "2", angle := 90 },
         { eui64 := "B", room := "r1", floor := "2", angle := 180 },
         { eui64 := "C", room := "r2", floor := "1", angle := 135 }]
        "2").device_count = 2 := by
  refine ⟨rfl, ?_, ?_, rfl, by decide⟩
  · intro hempty
    simp [GroupManager.get_room_summary, hempty]
  · intro hne
    have hlen : 0 < ((DeviceRegistry.list_by_room reg room).length : Int) := by
      have : (DeviceRegistry.list_by_room reg room).length ≠ 0 :=
        fun hc => hne (List.length_eq_zero.mp hc)
      omega
    have havg : (GroupManager.get_room_summary reg room).average_angle =
        pythonRound (sumAngles (DeviceRegistry.list_by_room reg room))
          ((DeviceRegistry.list_by_room reg room).length : Int) := by
      simp [GroupManager.get_room_summary, List.isEmpty_iff, hne]
    rw [havg]
    exact pythonRound_nearest _ _ hlen

/-- Witness for C7 (amended) at a concrete registry: room "r" holds angles
90 and 135, whose mean 112.5 rounds (half-to-even) to 112, within 1/2 of the
exact mean; and the empty room "z" defaults to 90. -/
theorem summaries_aggregate_witness :
    (GroupManager.get_room_summary
        [{ eui64 := "A", room := "r", floor := "1", angle := 90 },
         { eui64 := "B", room := "r", floor := "1", angle := 135 }]
        "z").average_angle = 90 ∧
    |2 * ((GroupManager.get_room_summary
        [{ eui64 := "A", room := "r", floor := "1", angle := 90 },
         { eui64 := "B", room := "r", floor := "1", angle := 135 }]
        "r").average_angle * (2 : Int) - 225)| ≤ (2 : Int) := by
  have h1 := summaries_aggregate
    [{ eui64 := "A", room := "r", floor := "1", angle := 90 },
     { eui64 := "B", room := "r", floor := "1", angle := 135 }] "z" "1"
  have h2 := summaries_aggregate
    [{ eui64 := "A", room := "r", floor := "1", angle := 90 },
     { eui64 := "B", room := "r", floor := "1", angle := 135 }] "r" "1"
  refine ⟨h1.2.1 (by decide), ?_⟩
  have := h2.2.2.1 (by decide)
  simpa using this

/-- Upserting any device keeps every id that was present present. -/
theorem upsert_preserves_isSome (now : Nat) (d : VentDevice)
    (reg : List VentDevice) (i : String)
    (hs : (DeviceRegistry.get reg i).isSome) :
    (DeviceRegistry.get (DeviceRegistry.upsert now d reg) i).isSome := by
  by_cases hi : i = d.eui64
  · subst hi; rw [get_upsert_self]; rfl
  · rw [get_upsert_other now d reg i hi]; exact hs

/-- The upserted id is present afterwards. -/
theorem upsert_self_isSome (now : Nat) (d : VentDevice)
    (reg : List VentDevice) :
    (DeviceRegistry.get (DeviceRegistry.upsert now d reg) d.eui64).isSome := by
  rw [get_upsert_self]; rfl

/-- If an id is absent after an upsert it was absent before. -/
theorem get_none_of_upsert_none (now : Nat) (d : VentDevice)
    (reg : List VentDevice) (i : String)
    (h : DeviceRegistry.get (DeviceRegistry.upsert now d reg) i = none) :
    DeviceRegistry.get reg i = none := by
  cases hg : DeviceRegistry.get reg i with
  | none => rfl
  | some x =>
    have hs := upsert_preserves_isSome now d reg i (by rw [hg]; rfl)
    rw [h] at hs
    exact absurd hs (by simp)

/-- The upsert fold keeps every present id present. -/
theorem upsertAll_preserves_isSome (now : Nat)
    (p : String → Option VentDevice) :
    ∀ (addrs : List String) (reg : List VentDevice) (i : String),
      (DeviceRegistry.get reg i).isSome →
      (DeviceRegistry.get (DeviceDiscovery.upsertAll now p addrs reg) i).isSome := by
  intro addrs
  induction addrs with
  | nil => exact fun reg i hs => hs
  | cons a rest ih =>
    intro reg i hs
    show (DeviceRegistry.get
      (DeviceDiscovery.upsertAll now p rest
        (match p a with
         | none => reg
         | some d => DeviceRegistry.upsert now d reg)) i).isSome
    cases hp : p a with
    | none => simpa [hp] using ih reg i hs
    | some d =>
      simpa [hp] using ih _ i (upsert_preserves_isSome now d reg i hs)

/-- After the upsert fold, every successfully probed address's device id is
present in the registry. -/
theorem probed_present_after_upsertAll (now : Nat)
    (p : String → Option VentDevice) :
    ∀ (addrs : List String) (reg : List VentDevice) (a : String)
      (d : VentDevice), a ∈ addrs → p a = some d →
      (DeviceRegistry.get (DeviceDiscovery.upsertAll now p addrs reg)
          d.eui64).isSome := by
  intro addrs
  induction addrs with
  | nil => intro reg a d hmem; exact absurd hmem (List.not_mem_nil a)
  | cons a0 rest ih =>
    intro reg a d hmem hp
    rcases List.mem_cons.mp hmem with heq | hmem2
    · subst heq
      show (DeviceRegistry.get
        (DeviceDiscovery.upsertAll now p rest
          (match p a with
           | none => reg
           | some d => DeviceRegistry.upsert now d reg)) d.eui64).isSome
      rw [hp]
      exact upsertAll_preserves_isSome now p rest _ _
        (upsert_self_isSome now d reg)
    · exact ih _ a d hmem2 hp

/-- `discover`'s final registry is the fold of upserts over the probed
addresses: every probed device is upserted, new or already known. -/
theorem discover_snd (now : Nat) (p : String → Option VentDevice) :
    ∀ (addrs : List String) (reg : List VentDevice),
      (DeviceDiscovery.discover now p addrs reg).2 =
        DeviceDiscovery.upsertAll now p addrs reg := by
  intro addrs
  induction addrs with
  | nil => intro reg; rfl
  | cons a rest ih =>
    intro reg
    cases hp : p a with
    | none =>
      simp [DeviceDiscovery.discover, DeviceDiscovery.upsertAll, hp, ih,
        List.foldl_cons]
    | some d =>
      rcases hd : DeviceDiscovery.discover now p rest
          (DeviceRegistry.upsert now d reg) with ⟨ns, regF⟩
      cases hE : DeviceRegistry.get reg d.eui64 <;>
        · simp [DeviceDiscovery.discover, DeviceDiscovery.upsertAll, hp, hd,
            hE, List.foldl_cons]
          have h2 := ih (DeviceRegistry.upsert now d reg)
          rw [hd] at h2
          exact h2

/-- If every probed id is already present, `discover` classifies nothing as
new. -/
theorem discover_no_new (now : Nat) (p : String → Option VentDevice) :
    ∀ (addrs : List String) (reg : List VentDevice),
      (∀ a d, a ∈ addrs → p a = some d →
        (DeviceRegistry.get reg d.eui64).isSome) →
      (DeviceDiscovery.discover now p addrs reg).1 = [] := by
  intro addrs
  induction addrs with
  | nil => intro reg _; rfl
  | cons a rest ih =>
    intro reg hknown
    cases hp : p a with
    | none =>
      simpa [DeviceDiscovery.discover, hp] using
        ih reg (fun a' d' hm hp' => hknown a' d' (List.mem_cons_of_mem a hm) hp')
    | some d =>
      have hpres : (DeviceRegistry.get reg d.eui64).isSome :=
        hknown a d (List.mem_cons_self a rest) hp
      rcases hsome : DeviceRegistry.get reg d.eui64 with _ | old
      · rw [hsome] at hpres; exact absurd hpres (by simp)
      · rcases hd : DeviceDiscovery.discover now p rest
            (DeviceRegistry.upsert now d reg) with ⟨ns, regF⟩
        have hns : ns = [] := by
          have := ih (DeviceRegistry.upsert now d reg)
            (fun a' d' hm hp' =>
              upsert_preserves_isSome now d reg d'.eui64
                (hknown a' d' (List.mem_cons_of_mem a hm) hp'))
          rw [hd] at this
          exact this
        simp [DeviceDiscovery.discover, hp, hd, hsome, hns]

/-- Every device `discover` returns as new was absent from the initial
registry and came from a successful probe of one of the addresses. -/
theorem discover_new_mem (now : Nat) (p : String → Option VentDevice) :
    ∀ (addrs : List String) (reg : List VentDevice) (d : VentDevice),
      d ∈ (DeviceDiscovery.discover now p addrs reg).1 →
      DeviceRegistry.get reg d.eui64 = none ∧
        ∃ a, a ∈ addrs ∧ p a = some d := by
  intro addrs
  induction addrs with
  | nil => intro reg d h; exact absurd h (List.not_mem_nil d)
  | cons a rest ih =>
    intro reg d h
    cases hp : p a with
    | none =>
      rw [show (DeviceDiscovery.discover now p (a :: rest) reg) =
          (DeviceDiscovery.discover now p rest reg) by
        simp [DeviceDiscovery.discover, hp]] at h
      obtain ⟨h1, a', ha', hp'⟩ := ih reg d h
      exact ⟨h1, a', List.mem_cons_of_mem a ha', hp'⟩
    | some dev =>
      rcases hd : DeviceDiscovery.discover now p rest
          (DeviceRegistry.upsert now dev reg) with ⟨ns, regF⟩
      have hrec : ∀ x, x ∈ ns →
          DeviceRegistry.get reg x.eui64 = none ∧
            ∃ a', a' ∈ a :: rest ∧ p a' = some x := by
        intro x hx
        have hx2 := ih (DeviceRegistry.upsert now dev reg) x (by rw [hd]; exact hx)
        exact ⟨get_none_of_upsert_none now dev reg x.eui64 hx2.1,
          hx2.2.elim (fun a' ha' =>
            ⟨a', List.mem_cons_of_mem a ha'.1, ha'.2⟩)⟩
      cases hE : DeviceRegistry.get reg dev.eui64 with
      | none =>
        rw [show (DeviceDiscovery.discover now p (a :: rest) reg) =
            (dev :: ns, regF) by
          simp [DeviceDiscovery.discover, hp, hd, hE]] at h
        rcases List.mem_cons.mp h with heq | hmem
        · subst heq
          exact ⟨hE, a, List.mem_cons_self a rest, hp⟩
        · exact hrec d hmem
      | some old =>
        rw [show (DeviceDiscovery.discover now p (a :: rest) reg) =
            (ns, regF) by
          simp [DeviceDiscovery.discover, hp, hd, hE]] at h
        exact hrec d h

/-- An id is present after an upsert iff it is the upserted id or was
present before. -/
theorem get_upsert_isSome_iff (now : Nat) (d : VentDevice)
    (reg : List VentDevice) (i : String) :
    (DeviceRegistry.get (DeviceRegistry.upsert now d reg) i).isSome ↔
      (i = d.eui64 ∨ (DeviceRegistry.get reg i).isSome) := by
  by_cases hi : i = d.eui64
  · subst hi
    exact iff_of_true (upsert_self_isSome now d reg) (Or.inl rfl)
  · rw [get_upsert_other now d reg i hi]
    simp [hi]

/-- `knownIds` membership is exactly lookup success. -/
theorem mem_knownIds (reg : List VentDevice) (i : String) :
    i ∈ DeviceDiscovery.knownIds reg ↔ (DeviceRegistry.get reg i).isSome := by
  induction reg with
  | nil => simp [DeviceDiscovery.knownIds, DeviceRegistry.get]
  | cons r rs ih =>
    by_cases h : r.eui64 = i
    · simp [DeviceDiscovery.knownIds, DeviceRegistry.get, h]
    · have hne : ¬ i = r.eui64 := fun hc => h hc.symm
      simpa [DeviceDiscovery.knownIds, DeviceRegistry.get, h, hne] using ih

/-- Refinement: `discover`'s new-device list equals the id-set-level
specification `newDevices`, for any id list `known` agreeing with the
registry.  The pre-check against the registry state at that step is exactly
the spec's membership test before the id is added. -/
theorem discover_fst_spec (now : Nat) (p : String → Option VentDevice) :
    ∀ (addrs : List String) (reg : List VentDevice) (known : List String),
      (∀ i, i ∈ known ↔ (DeviceRegistry.get reg i).isSome) →
      (DeviceDiscovery.discover now p addrs reg).1 =
        DeviceDiscovery.newDevices p addrs known := by
  intro addrs
  induction addrs with
  | nil => intro reg known _; rfl
  | cons a rest ih =>
    intro reg known hinv
    cases hp : p a with
    | none =>
      rw [show (DeviceDiscovery.discover now p (a :: rest) reg) =
          (DeviceDiscovery.discover now p rest reg) by
        simp [DeviceDiscovery.discover, hp]]
      rw [show DeviceDiscovery.newDevices p (a :: rest) known =
          DeviceDiscovery.newDevices p rest known by
        simp [DeviceDiscovery.newDevices, hp]]
      exact ih reg known hinv
    | some d =>
      rcases hd : DeviceDiscovery.discover now p rest
          (DeviceRegistry.upsert now d reg) with ⟨ns, regF⟩
      by_cases hk : d.eui64 ∈ known
      · have hpres : (DeviceRegistry.get reg d.eui64).isSome :=
          (hinv d.eui64).mp hk
        rcases hsome : DeviceRegistry.get reg d.eui64 with _ | old
        · rw [hsome] at hpres; exact absurd hpres (by simp)
        · rw [show (DeviceDiscovery.discover now p (a :: rest) reg) =
              (ns, regF) by
            simp [DeviceDiscovery.discover, hp, hd, hsome]]
          rw [show DeviceDiscovery.newDevices p (a :: rest) known =
              DeviceDiscovery.newDevices p rest known by
            simp [DeviceDiscovery.newDevices, hp, hk]]
          have hinv2 : ∀ i, i ∈ known ↔
              (DeviceRegistry.get (DeviceRegistry.upsert now d reg) i).isSome := by
            intro i
            rw [get_upsert_isSome_iff now d reg i, hinv i]
            constructor
            · exact Or.inr
            · rintro (rfl | h)
              · rw [hsome]; rfl
              · exact h
          have := ih (DeviceRegistry.upsert now d reg) known hinv2
          rw [hd] at this
          exact this
      · have habs : DeviceRegistry.get reg d.eui64 = none := by
          rcases hsome : DeviceRegistry.get reg d.eui64 with _ | old
          · rfl
          · exact absurd ((hinv d.eui64).mpr (by rw [hsome]; rfl)) hk
        rw [show (DeviceDiscovery.discover now p (a :: rest) reg) =
            (d :: ns, regF) by
          simp [DeviceDiscovery.discover, hp, hd, habs]]
        rw [show DeviceDiscovery.newDevices p (a :: rest) known =
            d :: DeviceDiscovery.newDevices p rest (d.eui64 :: known) by
          simp [DeviceDiscovery.newDevices, hp, hk]]
        have hinv2 : ∀ i, i ∈ d.eui64 :: known ↔
            (DeviceRegistry.get (DeviceRegistry.upsert now d reg) i).isSome := by
          intro i
          rw [get_upsert_isSome_iff now d reg i, List.mem_cons, hinv i]
        have hns := ih (DeviceRegistry.upsert now d reg) (d.eui64 :: known) hinv2
        rw [hd] at hns
        exact congrArg (List.cons d) hns

/-- Completeness: every successfully probed device whose id was absent from
the starting registry gets a device with that id into the new list. -/
theorem discover_complete (now : Nat) (p : String → Option VentDevice) :
    ∀ (addrs : List String) (reg : List VentDevice) (a : String)
      (d : VentDevice),
      a ∈ addrs → p a = some d → DeviceRegistry.get reg d.eui64 = none →
      ∃ d', d' ∈ (DeviceDiscovery.discover now p addrs reg).1 ∧
        d'.eui64 = d.eui64 := by
  intro addrs
  induction addrs with
  | nil => intro reg a d hmem; exact absurd hmem (List.not_mem_nil a)
  | cons a0 rest ih =>
    intro reg a d hmem hp habs
    cases hp0 : p a0 with
    | none =>
      have hmem2 : a ∈ rest := by
        rcases List.mem_cons.mp hmem with rfl | h
        · rw [hp0] at hp; exact Option.noConfusion hp
        · exact h
      rw [show (DeviceDiscovery.discover now p (a0 :: rest) reg) =
          (DeviceDiscovery.discover now p rest reg) by
        simp [DeviceDiscovery.discover, hp0]]
      exact ih reg a d hmem2 hp habs
    | some dev =>
      rcases hd : DeviceDiscovery.discover now p rest
          (DeviceRegistry.upsert now dev reg) with ⟨ns, regF⟩
      by_cases hid : dev.eui64 = d.eui64
      · rcases hE : DeviceRegistry.get reg dev.eui64 with _ | old
        · refine ⟨dev, ?_, hid⟩
          rw [show (DeviceDiscovery.discover now p (a0 :: rest) reg) =
              (dev :: ns, regF) by
            simp [DeviceDiscovery.discover, hp0, hd, hE]]
          exact List.mem_cons_self dev ns
        · rw [hid, habs] at hE
          exact Option.noConfusion hE
      · have hmem2 : a ∈ rest := by
          rcases List.mem_cons.mp hmem with rfl | h
          · rw [hp0] at hp
            injection hp with h2
            rw [h2] at hid
            exact absurd rfl hid
          · exact h
        have habs2 : DeviceRegistry.get
            (DeviceRegistry.upsert now dev reg) d.eui64 = none := by
          rw [get_upsert_other now dev reg d.eui64 (fun hc => hid hc.symm)]
          exact habs
        obtain ⟨d', hd', hid'⟩ := ih (DeviceRegistry.upsert now dev reg)
          a d hmem2 hp habs2
        rw [hd] at hd'
        rcases hE : DeviceRegistry.get reg dev.eui64 with _ | old
        · refine ⟨d', ?_, hid'⟩
          rw [show (DeviceDiscovery.discover now p (a0 :: rest) reg) =
              (dev :: ns, regF) by
            simp [DeviceDiscovery.discover, hp0, hd, hE]]
          exact List.mem_cons_of_mem dev hd'
        · refine ⟨d', ?_, hid'⟩
          rw [show (DeviceDiscovery.discover now p (a0 :: rest) reg) =
              (ns, regF) by
            simp [DeviceDiscovery.discover, hp0, hd, hE]]
          exact hd'

/-- C3: `discover` returns EXACTLY the successfully probed devices whose id
was absent from the registry at their pre-check, which happens before their
own upsert: the returned list equals the id-set-level specification
`newDevices` (whose membership test precedes the id's insertion — a
check-after-upsert variant would return nothing and falsify this equality);
soundly, every returned device was absent initially and probed; completely,
every probed device with an initially absent id puts that id into the
returned list; the final registry upserts every probed device; and a second
run over the same topology and probe outcomes returns no new devices while
still upserting every probed device — a device is new exactly once across
repeated runs. -/
theorem discover_new_exactly_once (now now2 : Nat)
    (p : String → Option VentDevice) (addrs : List String)
    (reg : List VentDevice) :
    (DeviceDiscovery.discover now p addrs reg).1 =
        DeviceDiscovery.newDevices p addrs (DeviceDiscovery.knownIds reg) ∧
    (∀ d, d ∈ (DeviceDiscovery.discover now p addrs reg).1 →
        DeviceRegistry.get reg d.eui64 = none ∧
          ∃ a, a ∈ addrs ∧ p a = some d) ∧
    (∀ a d, a ∈ addrs → p a = some d →
        DeviceRegistry.get reg d.eui64 = none →
        ∃ d', d' ∈ (DeviceDiscovery.discover now p addrs reg).1 ∧
          d'.eui64 = d.eui64) ∧
    (DeviceDiscovery.discover now p addrs reg).2 =
        DeviceDiscovery.upsertAll now p addrs reg ∧
    (DeviceDiscovery.discover now2 p addrs
        (DeviceDiscovery.discover now p addrs reg).2).1 = [] ∧
    (DeviceDiscovery.discover now2 p addrs
        (DeviceDiscovery.discover now p addrs reg).2).2 =
      DeviceDiscovery.upsertAll now2 p addrs
        (DeviceDiscovery.discover now p addrs reg).2 := by
  refine ⟨discover_fst_spec now p addrs reg (DeviceDiscovery.knownIds reg)
      (fun i => mem_knownIds reg i),
    discover_new_mem now p addrs reg,
    fun a d hmem hp habs => discover_complete now p addrs reg a d hmem hp habs,
    discover_snd now p addrs reg, ?_, discover_snd now2 p addrs _⟩
  apply discover_no_new
  intro a d hmem hp
  rw [discover_snd now p addrs reg]
  exact probed_present_after_upsertAll now p addrs reg a d hmem hp

/-- Witness for C3 at a concrete topology of one address probing to device
"A" against the empty registry: the device is returned as new (the
completeness direction exercised concretely), was absent beforehand, and a
second run returns nothing new. -/
theorem discover_new_exactly_once_witness :
    (DeviceRegistry.get ([] : List VentDevice) "A" = none ∧
      ∃ a, a ∈ ["fd00::1"] ∧
        (fun x => if x = "fd00::1"
          then some { eui64 := "A", ipv6_address := "fd00::1" }
          else none) a =
          some ({ eui64 := "A", ipv6_address := "fd00::1" } : VentDevice)) ∧
    (∃ d', d' ∈ (DeviceDiscovery.discover 1
        (fun x => if x = "fd00::1"
          then some { eui64 := "A", ipv6_address := "fd00::1" }
          else none)
        ["fd00::1"] []).1 ∧
      d'.eui64 = ({ eui64 := "A", ipv6_address := "fd00::1" } :
        VentDevice).eui64) ∧
    (DeviceDiscovery.discover 2
        (fun x => if x = "fd00::1"
          then some { eui64 := "A", ipv6_address := "fd00::1" }
          else none)
        ["fd00::1"]
        (DeviceDiscovery.discover 1
          (fun x => if x = "fd00::1"
            then some { eui64 := "A", ipv6_address := "fd00::1" }
            else none)
          ["fd00::1"] []).2).1 = [] := by
  have h := discover_new_exactly_once 1 2
    (fun x => if x = "fd00::1"
      then some { eui64 := "A", ipv6_address := "fd00::1" }
      else none)
    ["fd00::1"] []
  exact ⟨h.2.1 { eui64 := "A", ipv6_address := "fd00::1" } (by decide),
    h.2.2.1 "fd00::1" { eui64 := "A", ipv6_address := "fd00::1" }
      (by decide) (by decide) (by decide),
    h.2.2.2.2.1⟩

/-- Count/log characterization of `check_rules` for one oracle. -/
theorem check_rules_eval (fails : GroupCall → Bool) (t : ClockTime) :
    ∀ rules : List ScheduleRule,
      (Scheduler.check_rules fails rules t).1 =
          (rules.filter (fun r => r.matches_time t)).length ∧
      (Scheduler.check_rules fails rules t).2.map Prod.fst =
          (rules.filter (fun r => r.matches_time t)).filterMap
            Scheduler.rule_dispatch := by
  intro rules
  induction rules with
  | nil => exact ⟨rfl, rfl⟩
  | cons r rs ih =>
    rcases hc : Scheduler.check_rules fails rs t with ⟨n, logs⟩
    rw [hc] at ih
    cases hm : r.matches_time t with
    | false =>
      simpa [Scheduler.check_rules, List.filter_cons, hm, hc] using ih
    | true =>
      cases hdp : Scheduler.rule_dispatch r with
      | none =>
        simpa [Scheduler.check_rules, Scheduler.execute_rule,
          List.filter_cons, List.filterMap_cons, hm, hc, hdp] using ih
      | some c =>
        simpa [Scheduler.check_rules, Scheduler.execute_rule,
          List.filter_cons, List.filterMap_cons, hm, hc, hdp] using ih

/-- C5: `check_rules(t)` attempts, in list order, exactly the rules that are
enabled with hour and minute equal to `t`'s (an exact match, not a range),
dispatching each through the GroupManager call keyed by its `target_type`,
and returns the number of rules attempted; a failing execution (the `fails`
oracle) is caught, never prevents the remaining rules from running, and
leaves both the attempted-call sequence and the returned count unchanged. -/
theorem check_rules_spec (fails : GroupCall → Bool)
    (rules : List ScheduleRule) (t : ClockTime) :
    (Scheduler.check_rules fails rules t).1 =
        (rules.filter (fun r => r.matches_time t)).length ∧
    (Scheduler.check_rules fails rules t).2.map Prod.fst =
        (rules.filter (fun r => r.matches_time t)).filterMap
          Scheduler.rule_dispatch ∧
    (∀ fails2 : GroupCall → Bool,
        (Scheduler.check_rules fails2 rules t).1 =
            (Scheduler.check_rules fails rules t).1 ∧
        (Scheduler.check_rules fails2 rules t).2.map Prod.fst =
            (Scheduler.check_rules fails rules t).2.map Prod.fst) := by
  refine ⟨(check_rules_eval fails t rules).1, (check_rules_eval fails t rules).2, ?_⟩
  intro fails2
  constructor
  · rw [(check_rules_eval fails t rules).1, (check_rules_eval fails2 t rules).1]
  · rw [(check_rules_eval fails t rules).2, (check_rules_eval fails2 t rules).2]

/-- Counterexample to C9: `add_rule` appends unconditionally, so adding a
rule whose name is already present leaves two rules with that name — names
are not an enforced unique key. -/
theorem add_rule_duplicate_name :
    ((Scheduler.add_rule
        (Scheduler.add_rule []
          { name := "wake", hour := 8, minute := 0, target := "",
            target_type := "all", angle := 180 })
        { name := "wake", hour := 22, minute := 0, target := "",
          target_type := "all", angle := 90 }).map ScheduleRule.name) =
      ["wake", "wake"] ∧
    ¬ ((Scheduler.add_rule
        (Scheduler.add_rule []
          { name := "wake", hour := 8, minute := 0, target := "",
            target_type := "all", angle := 180 })
        { name := "wake", hour := 22, minute := 0, target := "",
          target_type := "all", angle := 90 }).map ScheduleRule.name).Nodup := by
  exact ⟨by decide, by decide⟩

/-- C9 as amended: rule names are not enforced unique — `add_rule` appends
unconditionally (a duplicate name yields two rules with it) — but
`remove_rule(name)` removes every rule carrying the name, and name
uniqueness is an invariant of exactly those histories whose `add_rule`
calls always use a name not currently present. -/
theorem rule_name_uniqueness_amended (rules : List ScheduleRule)
    (r : ScheduleRule) (name : String) :
    ((rules.map ScheduleRule.name).Nodup →
        r.name ∉ rules.map ScheduleRule.name →
        ((Scheduler.add_rule rules r).map ScheduleRule.name).Nodup) ∧
    (∀ x, x ∈ (Scheduler.remove_rule rules name).1 → x.name ≠ name) ∧
    ((rules.map ScheduleRule.name).Nodup →
        ((Scheduler.remove_rule rules name).1.map ScheduleRule.name).Nodup) := by
  refine ⟨?_, ?_, ?_⟩
  · intro h1 h2
    simp only [Scheduler.add_rule, List.map_append, List.map_cons,
      List.map_nil]
    simp [List.nodup_append, h1, h2]
  · intro x hx
    have hmem := (List.mem_filter.mp hx).2
    simpa using hmem
  · intro h1
    exact List.Nodup.sublist
      ((List.filter_sublist rules).map ScheduleRule.name) h1

/-- Witness for C9 (amended) at a concrete history: adding "sleep" to a set
holding only "wake" keeps names unique, and removing "wake" leaves no rule
named "wake". -/
theorem rule_name_uniqueness_amended_witness :
    ((Scheduler.add_rule
        [{ name := "wake", hour := 8, minute := 0, target := "",
           target_type := "all", angle := 180 }]
        { name := "sleep", hour := 22, minute := 0, target := "",
          target_type := "all", angle := 90 }).map ScheduleRule.name).Nodup ∧
    ((Scheduler.remove_rule
        [{ name := "wake", hour := 8, minute := 0, target := "",
           target_type := "all", angle := 180 }]
        "wake").1.map ScheduleRule.name).Nodup := by
  have h := rule_name_uniqueness_amended
    [{ name := "wake", hour := 8, minute := 0, target := "",
       target_type := "all", angle := 180 }]
    { name := "sleep", hour := 22, minute := 0, target := "",
      target_type := "all", angle := 90 }
    "wake"
  exact ⟨h.1 (by decide) (by decide), h.2.2 (by decide)⟩

/-- Membership in the first-occurrence deduplication worker. -/
theorem mem_firstDedup_go :
    ∀ (l seen : List String) (x : String),
      x ∈ DeviceRegistry.firstDedup.go l seen ↔ x ∈ l ∧ x ∉ seen := by
  intro l
  induction l with
  | nil => intro seen x; simp [DeviceRegistry.firstDedup.go]
  | cons a rest ih =>
    intro seen x
    by_cases ha : a ∈ seen
    · rw [show DeviceRegistry.firstDedup.go (a :: rest) seen =
          DeviceRegistry.firstDedup.go rest seen by
        simp [DeviceRegistry.firstDedup.go, ha]]
      rw [ih seen x]
      constructor
      · exact fun ⟨h1, h2⟩ => ⟨List.mem_cons_of_mem a h1, h2⟩
      · rintro ⟨h1, h2⟩
        rcases List.mem_cons.mp h1 with rfl | h1
        · exact absurd ha h2
        · exact ⟨h1, h2⟩
    · rw [show DeviceRegistry.firstDedup.go (a :: rest) seen =
          a :: DeviceRegistry.firstDedup.go rest (a :: seen) by
        simp [DeviceRegistry.firstDedup.go, ha]]
      constructor
      · intro hx
        rcases List.mem_cons.mp hx with rfl | hx
        · exact ⟨List.mem_cons_self x rest, ha⟩
        · obtain ⟨h1, h2⟩ := (ih (a :: seen) x).mp hx
          exact ⟨List.mem_cons_of_mem a h1,
            fun hc => h2 (List.mem_cons_of_mem a hc)⟩
      · rintro ⟨h1, h2⟩
        rcases List.mem_cons.mp h1 with rfl | h1
        · exact List.mem_cons_self x _
        · by_cases hxa : x = a
          · subst hxa; exact List.mem_cons_self x _
          · exact List.mem_cons_of_mem a
              ((ih (a :: seen) x).mpr
                ⟨h1, fun hc => by
                  rcases List.mem_cons.mp hc with h | h
                  · exact hxa h
                  · exact h2 h⟩)

/-- Membership in `firstDedup` is membership in the input. -/
theorem mem_firstDedup (l : List String) (x : String) :
    x ∈ DeviceRegistry.firstDedup l ↔ x ∈ l := by
  rw [DeviceRegistry.firstDedup, mem_firstDedup_go]
  simp

/-- C10: `list_by_room("")` — and therefore `set_room_angle("", angle)` —
selects exactly the devices whose room label is empty, while `get_rooms` /
`get_floors` never report the empty label: unassigned devices form a
commandable group the room/floor enumerations do not list. -/
theorem unassigned_room_group (reg : List VentDevice)
    (net : GroupManager.Net) (now : Nat) (angle : Int) :
    (∀ d, d ∈ DeviceRegistry.list_by_room reg "" ↔ d ∈ reg ∧ d.room = "") ∧
    "" ∉ DeviceRegistry.get_rooms reg ∧
    "" ∉ DeviceRegistry.get_floors reg ∧
    (GroupManager.set_room_angle net now reg "" angle).1 =
        ((DeviceRegistry.list_by_room reg "").filter
            (GroupManager.succeeded net)).map
          (fun d => { d with angle := max 90 (min 180 angle) }) ∧
    (∀ d, d ∈ (GroupManager.set_room_angle net now reg "" angle).1 →
        d.room = "") := by
  refine ⟨?_, ?_, ?_, ?_, ?_⟩
  · intro d
    simp [DeviceRegistry.list_by_room, List.mem_filter]
  · simp [DeviceRegistry.get_rooms, mem_firstDedup, List.mem_filter]
  · simp [DeviceRegistry.get_floors, mem_firstDedup, List.mem_filter]
  · rw [GroupManager.set_room_angle, set_devices_spec]
  · intro d hd
    rw [GroupManager.set_room_angle, set_devices_spec] at hd
    simp only [List.mem_map, List.mem_filter] at hd
    obtain ⟨x, ⟨hx, -⟩, rfl⟩ := hd
    rw [DeviceRegistry.list_by_room] at hx
    have hroom := (List.mem_filter.mp hx).2
    simpa using hroom

/-- Witness for C10 at a concrete registry: the addressless-room device
commanded through `set_room_angle("")` indeed has the empty room label. -/
theorem unassigned_room_group_witness :
    ({ eui64 := "A", ipv6_address := "fd00::1", room := "",
       angle := 120 } : VentDevice).room = "" := by
  have h := unassigned_room_group
    [{ eui64 := "A", ipv6_address := "fd00::1", room := "" }]
    (fun _ => true) 0 120
  exact h.2.2.2.2
    { eui64 := "A", ipv6_address := "fd00::1", room := "", angle := 120 }
    (by decide)

end VentHub
